import Mathlib
/-!
Shallow embedding of the Finance-Planner projection engine
(`app/lib/engine.ts`) and the relevant parts of its store
(`app/lib/store.ts`).

Modelling conventions:
* JS `number` values that the code guards with `Number.isFinite` are
  modelled as `Option ℚ`: `none` stands for a non-finite value
  (`NaN`/`Infinity`) or a missing (`undefined`) field, `some q` for a
  finite number.  Arithmetic the engine itself performs on finite inputs
  stays finite, and is modelled exactly over `ℚ`.
* JS strings are Lean `String`s.  JS `<` on strings (code-unit
  lexicographic order) is modelled by `charListLt` on the character
  data; for the ASCII month keys the code manipulates this coincides
  with the JS order.  JS `===` on strings is `String` equality.
* `Array.prototype.sort` with an order comparator is a stable sort; it
  is modelled by `List.insertionSort` with the non-strict order, which
  is also stable, so the two agree (and on month-distinct histories any
  correct sort agrees).
* `Number(s)` applied to the slices of a start month is modelled by
  `jsNumber`: the empty string yields `0` and a pure digit string its
  value, exactly as in JS; every other string is mapped to `none`
  (NaN).  (Strings such as " 1" or "+1" that JS would also parse are
  approximated as NaN; no month-key slice of that shape occurs in the
  claims.)  When either slice of the start month is NaN, the JS
  template literal produces the month string "NaN-NaN" for every index,
  which the model reproduces.
-/

/-- JS code-unit lexicographic `<` on strings, as a recursion over the
character lists (`a < b` in JS). -/
def charListLt : List Char → List Char → Bool
  | _, [] => false
  | [], _ :: _ => true
  | a :: as, b :: bs =>
    if a.toNat < b.toNat then true
    else if b.toNat < a.toNat then false
    else charListLt as bs

/-- JS string `a < b`. -/
def isoLt (a b : String) : Bool := charListLt a.data b.data

/-- JS string `a <= b` (equivalently `!(b < a)`). -/
def isoLe (a b : String) : Bool := !(isoLt b a)

/-- Value of a decimal digit character, if it is one. -/
def digitVal (c : Char) : Option Nat :=
  if 48 ≤ c.toNat ∧ c.toNat ≤ 57 then some (c.toNat - 48) else none

/-- Accumulating decimal parse of a character list; `none` when a
non-digit occurs. -/
def digitsVal : List Char → Nat → Option Nat
  | [], acc => some acc
  | c :: cs, acc =>
    match digitVal c with
    | some d => digitsVal cs (acc * 10 + d)
    | none => none

/-- Model of `Number(s)` as used on start-month slices: `""` parses to `0`,
digit strings to their value, anything else to NaN (`none`).  See the
header comment for the approximation involved. -/
def jsNumber (s : String) : Option Int :=
  (digitsVal s.data 0).map (fun n => (n : Int))

/-- Model of `s.slice(a, b)` on a JS string (character positions). -/
def jsSlice (s : String) (a b : Nat) : String :=
  String.mk ((s.data.take b).drop a)

/-- Decimal digit character for `n % 10`. -/
def digitChar : Nat → Char
  | 0 => '0' | 1 => '1' | 2 => '2' | 3 => '3' | 4 => '4'
  | 5 => '5' | 6 => '6' | 7 => '7' | 8 => '8' | _ => '9'

/-- Digit expansion of a natural number, most significant first; the
fuel argument only bounds the recursion and is always sufficient. -/
def natToCharsAux : Nat → Nat → List Char → List Char
  | 0, _, acc => acc
  | fuel + 1, n, acc =>
    if n < 10 then digitChar n :: acc
    else natToCharsAux fuel (n / 10) (digitChar (n % 10) :: acc)

/-- Decimal rendering of a natural number (JS `String(n)` for
non-negative integers). -/
def natToString (n : Nat) : String := String.mk (natToCharsAux (n + 1) n [])

/-- JS `String(i)` for an integer value. -/
def intToString : Int → String
  | Int.ofNat n => natToString n
  | Int.negSucc m => String.mk ('-' :: (natToString (m + 1)).data)

/-- JS `s.padStart(2, '0')`. -/
def padStart2 (s : String) : String :=
  if s.length ≥ 2 then s else if s.length = 1 then "0" ++ s else "00"

/-- The `^\d{4}-\d{2}$` test used by `newOneTimeItem` in
`app/lib/store.ts` to recognise a canonical `YYYY-MM` month key. -/
def isMonthKey (s : String) : Bool :=
  s.length == 7 &&
    (jsSlice s 0 4).data.all (fun c => (digitVal c).isSome) &&
    jsSlice s 4 5 == "-" &&
    (jsSlice s 5 7).data.all (fun c => (digitVal c).isSome)

/-- Translation of `normalizeMode` from `app/lib/store.ts`: any unrecognised mode
value becomes "hybrid". -/
def normalizeMode (v : String) : String :=
  if v = "snapshot" ∨ v = "projection" ∨ v = "hybrid" then v else "hybrid"

/-- Translation of `DatedAmount` from `app/lib/store.ts`. -/
structure DatedAmount where
  monthISO : String
  amount : Option ℚ
deriving DecidableEq

/-- Translation of `RecurringItem` from `app/lib/store.ts` (`endMonthISO?: string |
null` becomes `Option String`; the JS truthiness test treats `some ""`
like `none`). -/
structure RecurringItem where
  id : String
  kind : String
  name : String
  defaultAmount : Option ℚ
  behavior : String
  changes : List DatedAmount
  overrides : List DatedAmount
  endMonthISO : Option String
deriving DecidableEq

/-- Translation of `OneTimeItem` from `app/lib/store.ts`. -/
structure OneTimeItem where
  id : String
  kind : String
  name : String
  monthISO : String
  amount : Option ℚ
deriving DecidableEq

/-- Translation of `NetWorthAccount` from `app/lib/store.ts`. -/
structure NetWorthAccount where
  id : String
  name : String
  balances : List DatedAmount
deriving DecidableEq

/-- Translation of `Plan` from `app/lib/store.ts`.  Field `netWorthMode` is kept as a raw
string, as the engine re-checks it (`plan.netWorthMode || 'snapshot'`);
a missing mode is the empty string, matching JS falsiness. -/
structure Plan where
  currency : String
  startMonthISO : String
  startingNetWorth : Option ℚ
  goalNetWorth : Option ℚ
  expectedReturnPct : Option ℚ
  income : List RecurringItem
  expenses : List RecurringItem
  oneTimeIncome : List OneTimeItem
  oneTimeExpenses : List OneTimeItem
  netWorthAccounts : List NetWorthAccount
  netWorthMode : String
deriving DecidableEq

/-- Translation of `SeriesPoint` from `app/lib/engine.ts`. -/
structure SeriesPoint where
  monthIndex : Nat
  netWorth : ℚ
deriving DecidableEq

/-- The lapse test at the top of `amountForMonth`:
`it.endMonthISO && it.endMonthISO.length === 7 && monthISO > it.endMonthISO`. -/
def endCutoff (endMonthISO : Option String) (monthISO : String) : Bool :=
  match endMonthISO with
  | some e => !(e == "") && e.length == 7 && isoLt e monthISO
  | none => false

/-- The carry-forward scan in `amountForMonth`: walk the sorted changes,
taking each finite amount whose month is at or before the target, and
stop (`break`) at the first later month. -/
def bestChange : List DatedAmount → String → ℚ → ℚ
  | [], _, best => best
  | ch :: rest, monthISO, best =>
    if isoLe ch.monthISO monthISO = true then
      bestChange rest monthISO (match ch.amount with | some a => a | none => best)
    else best

/-- The comparator the engine passes to `sort` orders by `monthISO`
(via `compareISO`); this is the resulting stable sort. -/
def sortChanges (changes : List DatedAmount) : List DatedAmount :=
  List.insertionSort (fun a b => isoLe a.monthISO b.monthISO = true) changes

/-- Translation of `amountForMonth` from `app/lib/engine.ts`. -/
def amountForMonth (it : RecurringItem) (monthISO : String) : ℚ :=
  if endCutoff it.endMonthISO monthISO = true then 0
  else
    let base := it.defaultAmount.getD 0
    if it.behavior = "monthOnly" then
      match it.overrides.find? (fun x => x.monthISO == monthISO) with
      | some hit => hit.amount.getD base
      | none => base
    else
      bestChange (sortChanges it.changes) monthISO base

/-- Translation of `accountBalanceForMonth` from `app/lib/engine.ts`: exact-month
lookup, `0` when absent or non-finite. -/
def accountBalanceForMonth (acct : NetWorthAccount) (monthISO : String) : ℚ :=
  match acct.balances.find? (fun x => x.monthISO == monthISO) with
  | some hit => hit.amount.getD 0
  | none => 0

/-- Translation of `netWorthForMonth` from `app/lib/engine.ts`. -/
def netWorthForMonth (p : Plan) (monthISO : String) : ℚ :=
  let accounts := p.netWorthAccounts
  let sum := accounts.foldl (fun s a => s + accountBalanceForMonth a monthISO) 0
  if accounts.isEmpty = true ∧ p.startingNetWorth.isSome = true then
    p.startingNetWorth.getD 0
  else sum

/-- Translation of `hasNetWorthSnapshot` from `app/lib/engine.ts`. -/
def hasNetWorthSnapshot (p : Plan) (monthISO : String) : Bool :=
  p.netWorthAccounts.any (fun a => a.balances.any (fun b => b.monthISO == monthISO))

/-- The month-collection loop shared by `lastSnapshotAtOrBefore` and
`snapshotMonthAtOrBefore`: every balance entry with a finite amount
contributes its month. -/
def collectBalanceMonths (p : Plan) : List String :=
  (p.netWorthAccounts.map
    (fun a => (a.balances.filter (fun b => b.amount.isSome)).map
      (fun b => b.monthISO))).flatten

/-- Model of `Array.from(new Set(allMonths)).sort(compareISO)`: the distinct
collected months in ascending order.  (`List.dedup` may keep different
representatives of duplicates than a JS `Set`, but duplicates are equal
strings, so the sorted result is the same.) -/
def sortedBalanceMonths (p : Plan) : List String :=
  List.insertionSort (fun a b => isoLe a b = true) (collectBalanceMonths p).dedup

/-- The `for (const m of months) { if (m <= target) best = m; else break; }`
scan over the sorted months. -/
def latestLE : List String → String → Option String → Option String
  | [], _, best => best
  | m :: rest, target, best =>
    if isoLe m target = true then latestLE rest target (some m) else best

/-- Translation of `lastSnapshotAtOrBefore` from `app/lib/engine.ts`. -/
def lastSnapshotAtOrBefore (p : Plan) (monthISO : String) : Option ℚ :=
  let allMonths := collectBalanceMonths p
  if allMonths.isEmpty = true then
    let legacy := p.startingNetWorth.getD 0
    if legacy ≠ 0 then some legacy else none
  else
    match latestLE (sortedBalanceMonths p) monthISO none with
    | none => none
    | some best => some (netWorthForMonth p best)

/-- The body of the series loop in `buildNetWorthSeries`: given the
mode, monthly rate, current month and running net worth, produce the
value emitted for (and carried out of) this month. -/
def stepNW (p : Plan) (mode : String) (monthlyR : ℚ) (monthISO : String) (nw : ℚ) : ℚ :=
  if mode = "snapshot" then
    match lastSnapshotAtOrBefore p monthISO with
    | some snap => snap
    | none => nw
  else if mode = "hybrid" ∧ hasNetWorthSnapshot p monthISO = true then
    netWorthForMonth p monthISO
  else
    let inc := p.income.foldl (fun s it => s + amountForMonth it monthISO) 0
    let exp := p.expenses.foldl (fun s it => s + amountForMonth it monthISO) 0
    let oneInc := (p.oneTimeIncome.filter (fun x => x.monthISO == monthISO)).foldl
      (fun s x => s + x.amount.getD 0) 0
    let oneExp := (p.oneTimeExpenses.filter (fun x => x.monthISO == monthISO)).foldl
      (fun s x => s + x.amount.getD 0) 0
    let netCashFlow := inc + oneInc - (exp + oneExp)
    nw * (1 + monthlyR) + netCashFlow

/-- The month string computed inside the loop:
`t = startY*12 + startM + i; y = floor(t/12); m = t % 12;` then the
template literal with `padStart(2, '0')`.  JS `Math.floor` of the
division is `Int.fdiv`, JS `%` is `Int.tmod`.  When either parsed start
component is NaN, the template produces "NaN-NaN". -/
def monthISOOf (startY startM : Option Int) (i : Nat) : String :=
  match startY, startM with
  | some sy, some sm =>
    let t : Int := sy * 12 + sm + i
    let y := Int.fdiv t 12
    let m := Int.tmod t 12
    intToString y ++ "-" ++ padStart2 (intToString (m + 1))
  | _, _ => "NaN-NaN"

/-- The `for (let i = 0; i <= months; i++)` loop of
`buildNetWorthSeries`, with the remaining iteration count as fuel. -/
def seriesAux (p : Plan) (mode : String) (monthlyR : ℚ) (startY startM : Option Int) :
    ℚ → Nat → Nat → List SeriesPoint
  | _, _, 0 => []
  | nw, i, fuel + 1 =>
    let nw2 := stepNW p mode monthlyR (monthISOOf startY startM i) nw
    ⟨i, nw2⟩ :: seriesAux p mode monthlyR startY startM nw2 (i + 1) fuel

/-- Translation of `buildNetWorthSeries` from `app/lib/engine.ts`. -/
def buildNetWorthSeries (p : Plan) : List SeriesPoint :=
  let months := 12 * 50
  let monthlyR := (p.expectedReturnPct.getD 0) / 100 / 12
  let start := if p.startMonthISO = "" then "2026-01" else p.startMonthISO
  let startY := jsNumber (jsSlice start 0 4)
  let startM := (jsNumber (jsSlice start 5 7)).map (fun x => x - 1)
  let mode := if p.netWorthMode = "" then "snapshot" else p.netWorthMode
  let legacyStart := p.startingNetWorth.getD 0
  let nw0 :=
    if mode = "snapshot" then (lastSnapshotAtOrBefore p start).getD 0
    else if mode = "hybrid" then (lastSnapshotAtOrBefore p start).getD legacyStart
    else if hasNetWorthSnapshot p start = true then netWorthForMonth p start
    else legacyStart
  seriesAux p mode monthlyR startY startM nw0 0 (months + 1)

/-- The month string the series assigns to index `i` for a given plan
(the same computation `buildNetWorthSeries` performs). -/
def monthAt (p : Plan) (i : Nat) : String :=
  let start := if p.startMonthISO = "" then "2026-01" else p.startMonthISO
  monthISOOf (jsNumber (jsSlice start 0 4))
    ((jsNumber (jsSlice start 5 7)).map (fun x => x - 1)) i

/-- Source tag of a `netWorthAsOf` result. -/
inductive NWSource where
  | snapshot
  | legacy
deriving DecidableEq

/-- Result record of `netWorthAsOf`. -/
structure AsOfResult where
  monthISO : String
  netWorth : ℚ
  source : NWSource
deriving DecidableEq

/-- Translation of `snapshotMonthAtOrBefore` from `app/lib/engine.ts`. -/
def snapshotMonthAtOrBefore (p : Plan) (targetMonthISO : String) : Option String :=
  let months := collectBalanceMonths p
  if months.isEmpty = true then none
  else latestLE (sortedBalanceMonths p) targetMonthISO none

/-- Translation of `netWorthAsOf` from `app/lib/engine.ts`.  The JS `if (snapMonth)`
is a truthiness test: `null` and the empty string both fall through to
the legacy branch. -/
def netWorthAsOf (p : Plan) (targetMonthISO : String) : Option AsOfResult :=
  let fallback :=
    let legacy := p.startingNetWorth.getD 0
    if legacy ≠ 0 then some ⟨targetMonthISO, legacy, NWSource.legacy⟩ else none
  match snapshotMonthAtOrBefore p targetMonthISO with
  | some m => if m = "" then fallback else some ⟨m, netWorthForMonth p m, NWSource.snapshot⟩
  | none => fallback

/-- The concrete item refuting C8: a carry-forward item whose latest
change at or before the target month "2026-03" has a non-finite
amount. -/
def c8item : RecurringItem :=
  ⟨"i1", "income", "x", some 5, "carryForward",
    [⟨"2026-01", some 7⟩, ⟨"2026-02", none⟩], [], none⟩

/-- Net worth carried by the series loop after processing `k` months
starting at index `i` (the state after the `k`-th iteration). -/
def nwAfter (p : Plan) (mode : String) (monthlyR : ℚ) (startY startM : Option Int) :
    ℚ → Nat → Nat → ℚ
  | nw, _, 0 => nw
  | nw, i, k + 1 =>
    nwAfter p mode monthlyR startY startM
      (stepNW p mode monthlyR (monthISOOf startY startM i) nw) (i + 1) k

/-- The plan of the snapshot-mode scenario: one account with a single
balance 10000 at the start month, an income item and a return setting
that snapshot mode must ignore. -/
def planFlat : Plan :=
  ⟨"USD", "2026-01", some 0, some 0, some 12,
    [⟨"i1", "income", "salary", some 1000, "carryForward", [], [], none⟩],
    [], [], [],
    [⟨"a1", "Checking", [⟨"2026-01", some 10000⟩]⟩], "snapshot"⟩

/-- The scenario plan: start 2026-01, one account with balance 10000 at
2026-01, projection mode, 12% expected return, one recurring
carry-forward income of 1000. -/
def planC2 : Plan :=
  ⟨"USD", "2026-01", some 0, some 0, some 12,
    [⟨"i1", "income", "salary", some 1000, "carryForward", [], [], none⟩],
    [], [], [],
    [⟨"a1", "Checking", [⟨"2026-01", some 10000⟩]⟩], "projection"⟩

/-- A plan whose start month is present but not of the form `YYYY-MM`.
The engine does not replace it: the slices parse as year 2030, month
01, so the whole series is anchored at 2030-01. -/
def planBadStart : Plan :=
  ⟨"USD", "2030-013", some 0, some 0, some 0, [], [],
    [⟨"o1", "income", "bonus", "2026-01", some 100⟩], [], [], "projection"⟩

/-- The same plan with the fixed default month the spec says should be
substituted. -/
def planGoodStart : Plan := { planBadStart with startMonthISO := "2026-01" }

/-- A plan with a missing (falsy) `netWorthMode`, a snapshot at the
start month, and an income item: the engine falls back to snapshot
behavior on it, while hybrid mode would compound the income. -/
def planModeless : Plan :=
  ⟨"USD", "2026-01", some 0, some 0, some 0,
    [⟨"i1", "income", "salary", some 1000, "carryForward", [], [], none⟩],
    [], [], [],
    [⟨"a1", "Checking", [⟨"2026-01", some 10000⟩]⟩], ""⟩

/-- The same plan normalized the way `loadPlan` would normalize an
unrecognized mode. -/
def planModelessHybrid : Plan := { planModeless with netWorthMode := "hybrid" }

/-- A hybrid-mode plan with one snapshot three months after the start. -/
def planAnchor : Plan :=
  ⟨"USD", "2026-01", some 0, some 0, some 12,
    [⟨"i1", "income", "salary", some 1000, "carryForward", [], [], none⟩],
    [], [], [],
    [⟨"a1", "Brokerage", [⟨"2026-04", some 7⟩]⟩], "hybrid"⟩

/-- The scenario plan with the income and return settings removed:
snapshot mode must not see the difference. -/
def planFlatBare : Plan :=
  ⟨"USD", "2026-01", some 0, some 0, some 0, [], [], [], [],
    [⟨"a1", "Checking", [⟨"2026-01", some 10000⟩]⟩], "snapshot"⟩

/-- The concrete plan of the C6 witness: one entered balance 42 at
2026-03. -/
def planAsOf : Plan :=
  ⟨"USD", "2026-01", some 5, some 0, some 0, [], [], [], [],
    [⟨"a1", "Checking", [⟨"2026-03", some 42⟩]⟩], "hybrid"⟩

/-! ### Order facts about the JS string comparison -/

theorem charListLt_irrefl : ∀ l : List Char, charListLt l l = false
  | [] => rfl
  | _ :: as => by
    simp only [charListLt, lt_irrefl, if_false]
    exact charListLt_irrefl as

theorem charListLt_trans : ∀ {a b c : List Char},
    charListLt a b = true → charListLt b c = true → charListLt a c = true
  | _, [], _, hab, _ => by simp [charListLt] at hab
  | _, _ :: _, [], _, hbc => by simp [charListLt] at hbc
  | [], _ :: _, _ :: _, _, _ => rfl
  | x :: xs, y :: ys, z :: zs, hab, hbc => by
    simp only [charListLt] at hab hbc ⊢
    by_cases h1 : x.toNat < y.toNat
    · by_cases h2 : y.toNat < z.toNat
      · have hxz : x.toNat < z.toNat := by omega
        rw [if_pos hxz]
      · by_cases h3 : z.toNat < y.toNat
        · rw [if_neg h2, if_pos h3] at hbc
          simp at hbc
        · have hxz : x.toNat < z.toNat := by omega
          rw [if_pos hxz]
    · by_cases h4 : y.toNat < x.toNat
      · rw [if_neg h1, if_pos h4] at hab
        simp at hab
      · rw [if_neg h1, if_neg h4] at hab
        by_cases h2 : y.toNat < z.toNat
        · have hxz : x.toNat < z.toNat := by omega
          rw [if_pos hxz]
        · by_cases h3 : z.toNat < y.toNat
          · rw [if_neg h2, if_pos h3] at hbc
            simp at hbc
          · rw [if_neg h2, if_neg h3] at hbc
            have h5 : ¬ x.toNat < z.toNat := by omega
            have h6 : ¬ z.toNat < x.toNat := by omega
            rw [if_neg h5, if_neg h6]
            exact charListLt_trans hab hbc

theorem charListLt_eq_of_not : ∀ {a b : List Char},
    charListLt a b = false → charListLt b a = false → a = b
  | [], [], _, _ => rfl
  | [], _ :: _, hab, _ => by simp [charListLt] at hab
  | _ :: _, [], _, hba => by simp [charListLt] at hba
  | x :: xs, y :: ys, hab, hba => by
    simp only [charListLt] at hab hba
    by_cases h1 : x.toNat < y.toNat
    · rw [if_pos h1] at hab
      simp at hab
    · by_cases h2 : y.toNat < x.toNat
      · rw [if_pos h2] at hba
        simp at hba
      · rw [if_neg h1, if_neg h2] at hab
        rw [if_neg h2, if_neg h1] at hba
        have hn : x.toNat = y.toNat := by omega
        have hchar : x = y := Char.ext (UInt32.ext hn)
        rw [hchar, charListLt_eq_of_not hab hba]

theorem stringEq_of_data_eq {a b : String} (h : a.data = b.data) : a = b := by
  cases a; cases b; exact congrArg String.mk h

theorem isoLe_refl (a : String) : isoLe a a = true := by
  simp [isoLe, isoLt, charListLt_irrefl]

theorem isoLt_asymm {a b : String} (h : isoLt a b = true) : isoLt b a = false := by
  cases hv : isoLt b a
  · rfl
  · have := charListLt_trans (a := a.data) (b := b.data) (c := a.data)
      (by simpa [isoLt] using h) (by simpa [isoLt] using hv)
    rw [charListLt_irrefl] at this
    simp at this

theorem eq_of_not_isoLt {a b : String} (hab : isoLt a b = false) (hba : isoLt b a = false) :
    a = b :=
  stringEq_of_data_eq (charListLt_eq_of_not (by simpa [isoLt] using hab)
    (by simpa [isoLt] using hba))

theorem isoLe_total (a b : String) : isoLe a b = true ∨ isoLe b a = true := by
  by_cases h : isoLt b a = true
  · right
    simp [isoLe, isoLt_asymm h]
  · left
    simp [isoLe, eq_false_of_ne_true h]

theorem isoLe_iff_not_isoLt {a b : String} : isoLe a b = true ↔ isoLt b a = false := by
  simp [isoLe, Bool.not_eq_true']

theorem isoLe_trans {a b c : String} (hab : isoLe a b = true) (hbc : isoLe b c = true) :
    isoLe a c = true := by
  rw [isoLe_iff_not_isoLt] at hab hbc ⊢
  cases hca : isoLt c a
  · rfl
  · rcases hv : isoLt a b with _ | _
    · have : a = b := eq_of_not_isoLt hv hab
      rw [this] at hca
      rw [hca] at hbc
      simp at hbc
    · have : isoLt c b = true := charListLt_trans (a := c.data) (b := a.data) (c := b.data)
        (by simpa [isoLt] using hca) (by simpa [isoLt] using hv)
      rw [this] at hbc
      simp at hbc

theorem isoLe_antisymm {a b : String} (hab : isoLe a b = true) (hba : isoLe b a = true) :
    a = b := by
  rw [isoLe_iff_not_isoLt] at hab hba
  exact eq_of_not_isoLt hba hab

theorem isoLe_of_isoLt {a b : String} (h : isoLt a b = true) : isoLe a b = true := by
  rw [isoLe_iff_not_isoLt]
  exact isoLt_asymm h

instance : IsTotal String (fun a b => isoLe a b = true) := ⟨isoLe_total⟩

instance : IsTrans String (fun a b => isoLe a b = true) := ⟨fun _ _ _ => isoLe_trans⟩

instance : IsTotal DatedAmount (fun a b => isoLe a.monthISO b.monthISO = true) :=
  ⟨fun a b => isoLe_total a.monthISO b.monthISO⟩

instance : IsTrans DatedAmount (fun a b => isoLe a.monthISO b.monthISO = true) :=
  ⟨fun _ _ _ => isoLe_trans⟩

/-! ### Scan characterizations -/

theorem getLast?_cons_form {α} (a : α) (l : List α) :
    (a :: l).getLast? = match l.getLast? with | some x => some x | none => some a := by
  induction l generalizing a with
  | nil => rfl
  | cons b t ih =>
    rw [List.getLast?_cons_cons]
    rw [ih b]
    cases t.getLast? <;> rfl

/-- On a list sorted by month, the carry-forward scan returns the amount
of the last entry at or before the target month that has a finite
amount, and the supplied base value when there is none. -/
theorem bestChange_sorted (M : String) : ∀ (L : List DatedAmount),
    L.Pairwise (fun a b => isoLe a.monthISO b.monthISO = true) → ∀ best,
    bestChange L M best =
      match (L.filter (fun ch => isoLe ch.monthISO M && ch.amount.isSome)).getLast? with
      | some ch => ch.amount.getD 0
      | none => best
  | [], _, best => by simp [bestChange]
  | d :: rest, hs, best => by
    have hd := (List.pairwise_cons.mp hs).1
    have hrest := (List.pairwise_cons.mp hs).2
    by_cases hle : isoLe d.monthISO M = true
    · rcases hv : d.amount with _ | a
      · -- non-finite entry: skipped by scan and by filter
        rw [bestChange, if_pos hle, hv]
        rw [bestChange_sorted M rest hrest best]
        have : (d :: rest).filter (fun ch => isoLe ch.monthISO M && ch.amount.isSome) =
            rest.filter (fun ch => isoLe ch.monthISO M && ch.amount.isSome) := by
          rw [List.filter_cons]
          simp [hle, hv]
        rw [this]
      · -- finite entry at or before M: becomes the running best
        rw [bestChange, if_pos hle, hv]
        rw [bestChange_sorted M rest hrest a]
        have : (d :: rest).filter (fun ch => isoLe ch.monthISO M && ch.amount.isSome) =
            d :: rest.filter (fun ch => isoLe ch.monthISO M && ch.amount.isSome) := by
          rw [List.filter_cons]
          simp [hle, hv]
        rw [this, getLast?_cons_form]
        cases (rest.filter (fun ch => isoLe ch.monthISO M && ch.amount.isSome)).getLast? <;>
          simp [hv]
    · -- first later month: the scan breaks, and sortedness empties the filter
      rw [bestChange, if_neg hle]
      have hnone : ∀ e ∈ rest, ¬ (isoLe e.monthISO M && e.amount.isSome) = true := by
        intro e he hcontra
        rw [Bool.and_eq_true] at hcontra
        exact hle (isoLe_trans (hd e he) hcontra.1)
      have : (d :: rest).filter (fun ch => isoLe ch.monthISO M && ch.amount.isSome) = [] := by
        rw [List.filter_cons]
        have hdfalse : ¬ (isoLe d.monthISO M && d.amount.isSome) = true := by
          rw [Bool.and_eq_true]
          exact fun hc => hle hc.1
        simp only [hdfalse, if_false, if_neg]
        · exact List.filter_eq_nil_iff.mpr hnone
      rw [this]
      rfl

/-- On a month-sorted scan list, `latestLE` returns the last element at
or before the target, and the accumulator when there is none. -/
theorem latestLE_sorted (target : String) : ∀ (L : List String),
    L.Pairwise (fun a b => isoLe a b = true) → ∀ acc,
    latestLE L target acc =
      match (L.filter (fun m => isoLe m target)).getLast? with
      | some x => some x
      | none => acc
  | [], _, acc => by simp [latestLE]
  | m :: rest, hs, acc => by
    have hd := (List.pairwise_cons.mp hs).1
    have hrest := (List.pairwise_cons.mp hs).2
    by_cases hle : isoLe m target = true
    · rw [latestLE, if_pos hle]
      rw [latestLE_sorted target rest hrest (some m)]
      have : (m :: rest).filter (fun x => isoLe x target) =
          m :: rest.filter (fun x => isoLe x target) := by
        rw [List.filter_cons]
        simp [hle]
      rw [this, getLast?_cons_form]
      cases (rest.filter (fun x => isoLe x target)).getLast? <;> simp
    · rw [latestLE, if_neg hle]
      have : (m :: rest).filter (fun x => isoLe x target) = [] := by
        rw [List.filter_cons]
        simp only [hle, if_false, if_neg]
        · refine List.filter_eq_nil_iff.mpr ?_
          intro e he hcontra
          exact hle (isoLe_trans (hd e he) hcontra)
      rw [this]
      rfl

/-- In a month-sorted list with pairwise-distinct keys, an element that
is an upper bound of all keys is the last element. -/
theorem getLast?_eq_of_max {α} (k : α → String) : ∀ (S : List α),
    S.Pairwise (fun a b => isoLe (k a) (k b) = true) →
    S.Pairwise (fun a b => k a ≠ k b) →
    ∀ c ∈ S, (∀ e ∈ S, isoLe (k e) (k c) = true) → S.getLast? = some c
  | [], _, _, c, hc, _ => absurd hc (List.not_mem_nil c)
  | [a], _, _, c, hc, _ => by
    rcases List.mem_singleton.mp hc with rfl
    rfl
  | a :: b :: t, hs, hk, c, hc, hmax => by
    have hd := (List.pairwise_cons.mp hs).1
    have hrest := (List.pairwise_cons.mp hs).2
    have hkd := (List.pairwise_cons.mp hk).1
    have hkrest := (List.pairwise_cons.mp hk).2
    rw [List.getLast?_cons_cons]
    rcases List.mem_cons.mp hc with rfl | hc2
    · -- the head cannot be the maximum of a longer distinct sorted list
      exfalso
      have hb : b ∈ b :: t := List.mem_cons_self b t
      have h1 := hd b hb
      have h2 := hmax b (List.mem_cons_of_mem _ hb)
      exact hkd b hb (isoLe_antisymm h1 h2)
    · exact getLast?_eq_of_max k (b :: t) hrest hkrest c hc2
        (fun e he => hmax e (List.mem_cons_of_mem a he))

/-! ### Characterization of the carry-forward resolver -/

theorem sortChanges_perm (changes : List DatedAmount) :
    List.Perm (sortChanges changes) changes :=
  List.perm_insertionSort (fun a b : DatedAmount => isoLe a.monthISO b.monthISO = true) changes

theorem sortChanges_sorted (changes : List DatedAmount) :
    (sortChanges changes).Pairwise (fun a b => isoLe a.monthISO b.monthISO = true) :=
  List.sorted_insertionSort (fun a b : DatedAmount => isoLe a.monthISO b.monthISO = true) changes

theorem sortChanges_key_distinct {changes : List DatedAmount}
    (h : changes.Pairwise (fun a b => a.monthISO ≠ b.monthISO)) :
    (sortChanges changes).Pairwise (fun a b => a.monthISO ≠ b.monthISO) :=
  ((sortChanges_perm changes).pairwise_iff (fun h2 e => h2 e.symm)).mpr h

theorem mem_sortChanges {changes : List DatedAmount} {c : DatedAmount} :
    c ∈ sortChanges changes ↔ c ∈ changes :=
  (sortChanges_perm changes).mem_iff

/-- For a non-lapsed carry-forward item, `amountForMonth` is the amount
of the last change (in month order) at or before the target that has a
finite amount, defaulting to the base amount. -/
theorem amountForMonth_carry (it : RecurringItem) (M : String)
    (hb : it.behavior = "carryForward")
    (hnc : endCutoff it.endMonthISO M = false) :
    amountForMonth it M =
      match ((sortChanges it.changes).filter
          (fun ch => isoLe ch.monthISO M && ch.amount.isSome)).getLast? with
      | some ch => ch.amount.getD 0
      | none => it.defaultAmount.getD 0 := by
  rw [amountForMonth, hnc]
  simp only [Bool.false_eq_true, if_false, hb]
  have hmo : ¬ ("carryForward" : String) = "monthOnly" := by decide
  rw [if_neg hmo]
  exact bestChange_sorted M (sortChanges it.changes) (sortChanges_sorted it.changes) _

/-- The lapse test is false when there is no end month or the target
month is at or before it. -/
theorem endCutoff_false_of_le {o : Option String} {M : String}
    (h : o = none ∨ ∃ e, o = some e ∧ isoLe M e = true) : endCutoff o M = false := by
  rcases h with h | ⟨e, he, hle⟩
  · simp [endCutoff, h]
  · have : isoLt e M = false := isoLe_iff_not_isoLt.mp hle
    simp [endCutoff, he, this]

/-- C4: for a carry-forward item that has not lapsed, with a
well-formed history (finite amounts, pairwise-distinct change months,
finite default), `amountForMonth` equals the amount of the latest
change whose month is at or before the target month, and equals
`defaultAmount` when no change is at or before it — for any order of
the stored changes array. -/
theorem carryForward_step_claim (it : RecurringItem) (M : String)
    (hb : it.behavior = "carryForward")
    (hend : it.endMonthISO = none ∨ ∃ e, it.endMonthISO = some e ∧ isoLe M e = true)
    (hfin : ∀ c ∈ it.changes, c.amount.isSome = true)
    (hdist : it.changes.Pairwise (fun a b => a.monthISO ≠ b.monthISO)) :
    ((∀ c ∈ it.changes, ¬ isoLe c.monthISO M = true) →
        amountForMonth it M = it.defaultAmount.getD 0)
    ∧ (∀ c ∈ it.changes, isoLe c.monthISO M = true →
        (∀ c2 ∈ it.changes, isoLe c2.monthISO M = true → isoLe c2.monthISO c.monthISO = true) →
        ∀ a, c.amount = some a → amountForMonth it M = a) := by
  have hnc := endCutoff_false_of_le hend
  rw [amountForMonth_carry it M hb hnc]
  constructor
  · intro hnone
    have hempty : (sortChanges it.changes).filter
        (fun ch => isoLe ch.monthISO M && ch.amount.isSome) = [] := by
      refine List.filter_eq_nil_iff.mpr ?_
      intro ch hch hcontra
      rw [Bool.and_eq_true] at hcontra
      exact hnone ch (mem_sortChanges.mp hch) hcontra.1
    rw [hempty]
    rfl
  · intro c hc hcle hmax a hca
    have hlast : ((sortChanges it.changes).filter
        (fun ch => isoLe ch.monthISO M && ch.amount.isSome)).getLast? = some c := by
      refine getLast?_eq_of_max (fun x => x.monthISO) _
        ((sortChanges_sorted it.changes).filter _)
        ((sortChanges_key_distinct hdist).filter _) c ?_ ?_
      · refine List.mem_filter.mpr ⟨mem_sortChanges.mpr hc, ?_⟩
        rw [Bool.and_eq_true]
        exact ⟨hcle, hfin c hc⟩
      · intro e he
        have h1 := List.mem_filter.mp he
        have h2 := h1.2
        rw [Bool.and_eq_true] at h2
        exact hmax e (mem_sortChanges.mp h1.1) h2.1
    rw [hlast]
    simp [hca]

/-! ### End-month cutoff and non-finite change handling -/

theorem isMonthKey_length {s : String} (h : isMonthKey s = true) : s.length = 7 := by
  simp only [isMonthKey, Bool.and_eq_true, beq_iff_eq] at h
  exact h.1.1.1

theorem ne_empty_of_isMonthKey {s : String} (h : isMonthKey s = true) : s ≠ "" := by
  intro he
  have := isMonthKey_length h
  rw [he] at this
  simp at this

/-- C5: a recurring item with a canonical `YYYY-MM` end month
contributes `0` to every strictly later month, whatever its behavior,
histories and default amount. -/
theorem endMonth_cutoff_claim (it : RecurringItem) (e M : String)
    (he : it.endMonthISO = some e) (hk : isMonthKey e = true)
    (hlt : isoLt e M = true) :
    amountForMonth it M = 0 := by
  have hcut : endCutoff it.endMonthISO M = true := by
    rw [he]
    simp only [endCutoff, Bool.and_eq_true, Bool.not_eq_true', beq_eq_false_iff_ne,
      ne_eq, beq_iff_eq]
    refine ⟨⟨ne_empty_of_isMonthKey hk, ?_⟩, hlt⟩
    rw [isMonthKey_length hk]
  rw [amountForMonth, hcut]
  simp

/-- C5 witness at a concrete lapsed item. -/
theorem endMonth_cutoff_claim_witness :
    amountForMonth ⟨"i1", "income", "salary", some 500, "carryForward",
      [⟨"2026-02", some 900⟩], [], some "2026-05"⟩ "2026-06" = 0 :=
  endMonth_cutoff_claim _ "2026-05" "2026-06" rfl (by decide) (by decide)

/-- C8 counterexample: the latest change at or before "2026-03" is the
non-finite one at "2026-02", yet `amountForMonth` is `7` (the earlier
finite change), not `0` as claimed. -/
theorem nonfinite_change_claim_cex :
    ((sortChanges c8item.changes).filter
        (fun ch => isoLe ch.monthISO "2026-03")).getLast? = some ⟨"2026-02", none⟩
    ∧ amountForMonth c8item "2026-03" = 7
    ∧ ¬ amountForMonth c8item "2026-03" = 0 := by
  refine ⟨by decide, by decide, by decide⟩

/-- C8 amended: a non-finite change amount is not treated as `0`; it is
skipped entirely.  For a non-lapsed carry-forward item with
pairwise-distinct change months, the resolved amount is that of the
latest change at or before the target month whose amount is finite, and
the (`0`-defaulted) base amount when every change at or before the
target is non-finite. -/
theorem nonfinite_change_skipped (it : RecurringItem) (M : String)
    (hb : it.behavior = "carryForward")
    (hend : it.endMonthISO = none ∨ ∃ e, it.endMonthISO = some e ∧ isoLe M e = true)
    (hdist : it.changes.Pairwise (fun a b => a.monthISO ≠ b.monthISO)) :
    ((∀ c ∈ it.changes, isoLe c.monthISO M = true → c.amount = none) →
        amountForMonth it M = it.defaultAmount.getD 0)
    ∧ (∀ c ∈ it.changes, isoLe c.monthISO M = true → c.amount.isSome = true →
        (∀ c2 ∈ it.changes, isoLe c2.monthISO M = true → c2.amount.isSome = true →
          isoLe c2.monthISO c.monthISO = true) →
        amountForMonth it M = c.amount.getD 0) := by
  have hnc := endCutoff_false_of_le hend
  rw [amountForMonth_carry it M hb hnc]
  constructor
  · intro hnone
    have hempty : (sortChanges it.changes).filter
        (fun ch => isoLe ch.monthISO M && ch.amount.isSome) = [] := by
      refine List.filter_eq_nil_iff.mpr ?_
      intro ch hch hcontra
      rw [Bool.and_eq_true] at hcontra
      have := hnone ch (mem_sortChanges.mp hch) hcontra.1
      rw [this] at hcontra
      simp at hcontra
    rw [hempty]
    rfl
  · intro c hc hcle hcfin hmax
    have hlast : ((sortChanges it.changes).filter
        (fun ch => isoLe ch.monthISO M && ch.amount.isSome)).getLast? = some c := by
      refine getLast?_eq_of_max (fun x => x.monthISO) _
        ((sortChanges_sorted it.changes).filter _)
        ((sortChanges_key_distinct hdist).filter _) c ?_ ?_
      · refine List.mem_filter.mpr ⟨mem_sortChanges.mpr hc, ?_⟩
        rw [Bool.and_eq_true]
        exact ⟨hcle, hcfin⟩
      · intro e he
        have h1 := List.mem_filter.mp he
        have h2 := h1.2
        rw [Bool.and_eq_true] at h2
        exact hmax e (mem_sortChanges.mp h1.1) h2.1 h2.2
    rw [hlast]

/-- C8 amended witness: after the non-finite change at "2026-02", the
item of the counterexample resolves to the finite change at "2026-01". -/
theorem nonfinite_change_skipped_witness :
    amountForMonth c8item "2026-03" = (some (7 : ℚ)).getD 0 :=
  (nonfinite_change_skipped c8item "2026-03" rfl (Or.inl rfl) (by decide)).2
    ⟨"2026-01", some 7⟩ (by decide) (by decide) (by decide) (by decide)

/-- C4 witness: an unsorted two-change history resolves to the later
change at a month past both. -/
theorem carryForward_step_claim_witness :
    amountForMonth ⟨"i2", "income", "y", some 2, "carryForward",
      [⟨"2026-02", some 3⟩, ⟨"2026-01", some 2⟩], [], none⟩ "2026-03" = 3 :=
  (carryForward_step_claim _ "2026-03" rfl (Or.inl rfl) (by decide) (by decide)).2
    ⟨"2026-02", some 3⟩ (by decide) (by decide) (by decide) 3 rfl

/-! ### Shape of the series loop -/

theorem seriesAux_length (p : Plan) (mode : String) (r : ℚ) (sy sm : Option Int) :
    ∀ (f i : Nat) (nw : ℚ), (seriesAux p mode r sy sm nw i f).length = f
  | 0, _, _ => rfl
  | f + 1, i, nw => by
    rw [seriesAux, List.length_cons]
    rw [seriesAux_length p mode r sy sm f (i + 1) _]

theorem nwAfter_succ (p : Plan) (mode : String) (r : ℚ) (sy sm : Option Int) :
    ∀ (k i : Nat) (nw : ℚ),
      nwAfter p mode r sy sm nw i (k + 1) =
        stepNW p mode r (monthISOOf sy sm (i + k)) (nwAfter p mode r sy sm nw i k)
  | 0, i, nw => by simp [nwAfter]
  | k + 1, i, nw => by
    conv_lhs => rw [nwAfter]
    conv_rhs => rw [nwAfter]
    rw [nwAfter_succ p mode r sy sm k (i + 1) _]
    have h1 : i + 1 + k = i + (k + 1) := by omega
    rw [h1]

theorem seriesAux_getElem? (p : Plan) (mode : String) (r : ℚ) (sy sm : Option Int) :
    ∀ (f j i : Nat) (nw : ℚ), j < f →
      (seriesAux p mode r sy sm nw i f)[j]? =
        some ⟨i + j, nwAfter p mode r sy sm nw i (j + 1)⟩
  | 0, j, _, _, hj => absurd hj (Nat.not_lt_zero j)
  | f + 1, 0, i, nw, _ => by
    rw [seriesAux]
    simp [nwAfter]
  | f + 1, j + 1, i, nw, hj => by
    rw [seriesAux]
    rw [List.getElem?_cons_succ]
    rw [seriesAux_getElem? p mode r sy sm f j (i + 1) _ (by omega)]
    have h1 : i + 1 + j = i + (j + 1) := by omega
    rw [h1]
    have h2 : nwAfter p mode r sy sm nw i (j + 1 + 1) =
        nwAfter p mode r sy sm
          (stepNW p mode r (monthISOOf sy sm i) nw) (i + 1) (j + 1) := by
      rw [nwAfter]
    rw [h2]

/-- C7: for every plan, the series has exactly 601 points, and the
point at position `j` carries month index `j` — so the indices are
strictly increasing from 0 to 600. -/
theorem horizon_claim (p : Plan) :
    (buildNetWorthSeries p).length = 601
    ∧ ∀ j, j < 601 → ∃ v, (buildNetWorthSeries p)[j]? = some ⟨j, v⟩ := by
  constructor
  · rw [buildNetWorthSeries]
    rw [seriesAux_length]
  · intro j hj
    rw [buildNetWorthSeries]
    rw [seriesAux_getElem? _ _ _ _ _ _ j 0 _ (by omega)]
    rw [Nat.zero_add]
    exact ⟨_, rfl⟩

/-- C7 witness at a concrete plan and the last index. -/
theorem horizon_claim_witness :
    (buildNetWorthSeries
        ⟨"USD", "2026-01", some 0, some 0, some 0, [], [], [], [], [], ""⟩).length = 601
    ∧ ∃ v, (buildNetWorthSeries
        ⟨"USD", "2026-01", some 0, some 0, some 0, [], [], [], [], [], ""⟩)[600]? =
        some ⟨600, v⟩ :=
  ⟨(horizon_claim _).1, (horizon_claim _).2 600 (by decide)⟩

theorem stepNW_hybrid_anchor (p : Plan) (r : ℚ) (m : String) (nw : ℚ)
    (h : hasNetWorthSnapshot p m = true) :
    stepNW p "hybrid" r m nw = netWorthForMonth p m := by
  rw [stepNW]
  rw [if_neg (by decide : ¬ ("hybrid" : String) = "snapshot")]
  rw [if_pos ⟨rfl, h⟩]

/-- C1: in hybrid mode, at every index within the horizon whose month
has an exact snapshot, the emitted point is exactly the aggregate
entered net worth for that month — the modeled return/cash-flow update
is not applied. -/
theorem hybrid_anchor_agreement (p : Plan) (i : Nat)
    (hi : i ≤ 600) (hmode : p.netWorthMode = "hybrid")
    (hsnap : hasNetWorthSnapshot p (monthAt p i) = true) :
    (buildNetWorthSeries p)[i]? = some ⟨i, netWorthForMonth p (monthAt p i)⟩ := by
  rw [buildNetWorthSeries]
  simp only [hmode]
  rw [if_neg (by decide : ¬ ("hybrid" : String) = "")]
  rw [seriesAux_getElem? _ _ _ _ _ _ i 0 _ (by omega)]
  rw [nwAfter_succ]
  simp only [Nat.zero_add]
  rw [monthAt] at hsnap
  rw [stepNW_hybrid_anchor _ _ _ _ hsnap]
  rw [monthAt]

/-! ### Which plan fields the loop reads -/

theorem collectBalanceMonths_congr (p q : Plan)
    (hacc : p.netWorthAccounts = q.netWorthAccounts) :
    collectBalanceMonths p = collectBalanceMonths q := by
  simp only [collectBalanceMonths, hacc]

theorem sortedBalanceMonths_congr (p q : Plan)
    (hacc : p.netWorthAccounts = q.netWorthAccounts) :
    sortedBalanceMonths p = sortedBalanceMonths q := by
  simp only [sortedBalanceMonths, collectBalanceMonths_congr p q hacc]

theorem netWorthForMonth_congr (p q : Plan)
    (hacc : p.netWorthAccounts = q.netWorthAccounts)
    (hsnw : p.startingNetWorth = q.startingNetWorth) (m : String) :
    netWorthForMonth p m = netWorthForMonth q m := by
  simp only [netWorthForMonth, hacc, hsnw]

theorem hasNetWorthSnapshot_congr (p q : Plan)
    (hacc : p.netWorthAccounts = q.netWorthAccounts) (m : String) :
    hasNetWorthSnapshot p m = hasNetWorthSnapshot q m := by
  simp only [hasNetWorthSnapshot, hacc]

theorem lastSnapshotAtOrBefore_congr (p q : Plan)
    (hacc : p.netWorthAccounts = q.netWorthAccounts)
    (hsnw : p.startingNetWorth = q.startingNetWorth) (m : String) :
    lastSnapshotAtOrBefore p m = lastSnapshotAtOrBefore q m := by
  simp only [lastSnapshotAtOrBefore, collectBalanceMonths_congr p q hacc,
    sortedBalanceMonths_congr p q hacc, hsnw, netWorthForMonth_congr p q hacc hsnw]

theorem stepNW_congr (p q : Plan)
    (hinc : p.income = q.income) (hexp : p.expenses = q.expenses)
    (hoi : p.oneTimeIncome = q.oneTimeIncome) (hoe : p.oneTimeExpenses = q.oneTimeExpenses)
    (hacc : p.netWorthAccounts = q.netWorthAccounts)
    (hsnw : p.startingNetWorth = q.startingNetWorth)
    (mode : String) (r : ℚ) (m : String) (nw : ℚ) :
    stepNW p mode r m nw = stepNW q mode r m nw := by
  simp only [stepNW, hinc, hexp, hoi, hoe, lastSnapshotAtOrBefore_congr p q hacc hsnw,
    hasNetWorthSnapshot_congr p q hacc, netWorthForMonth_congr p q hacc hsnw]

theorem seriesAux_congr (p q : Plan) (mode : String) (r1 r2 : ℚ) (sy sm : Option Int)
    (hstep : ∀ m nw, stepNW p mode r1 m nw = stepNW q mode r2 m nw) :
    ∀ (f i : Nat) (nw : ℚ),
      seriesAux p mode r1 sy sm nw i f = seriesAux q mode r2 sy sm nw i f
  | 0, _, _ => rfl
  | f + 1, i, nw => by
    rw [seriesAux, seriesAux, hstep]
    rw [seriesAux_congr p q mode r1 r2 sy sm hstep f (i + 1) _]

/-- Lemma: `buildNetWorthSeries` reads a plan only through the effective start
month, the effective mode, the return percentage, the legacy scalar and
the item/account arrays. -/
theorem buildNetWorthSeries_congr (p q : Plan)
    (hstart : (if p.startMonthISO = "" then "2026-01" else p.startMonthISO) =
              (if q.startMonthISO = "" then "2026-01" else q.startMonthISO))
    (hmode : (if p.netWorthMode = "" then "snapshot" else p.netWorthMode) =
             (if q.netWorthMode = "" then "snapshot" else q.netWorthMode))
    (hret : p.expectedReturnPct = q.expectedReturnPct)
    (hsnw : p.startingNetWorth = q.startingNetWorth)
    (hinc : p.income = q.income) (hexp : p.expenses = q.expenses)
    (hoi : p.oneTimeIncome = q.oneTimeIncome) (hoe : p.oneTimeExpenses = q.oneTimeExpenses)
    (hacc : p.netWorthAccounts = q.netWorthAccounts) :
    buildNetWorthSeries p = buildNetWorthSeries q := by
  simp only [buildNetWorthSeries]
  rw [hstart, hmode, hret, hsnw]
  rw [lastSnapshotAtOrBefore_congr p q hacc hsnw, hasNetWorthSnapshot_congr p q hacc,
    netWorthForMonth_congr p q hacc hsnw]
  exact seriesAux_congr p q _ _ _ _ _
    (fun m nw => stepNW_congr p q hinc hexp hoi hoe hacc hsnw _ _ m nw) _ _ _

/-! ### Mode and start-month fallbacks -/

/-- C9 amended: only a missing (falsy) `startMonthISO` is replaced by
the default "2026-01"; the series is then the one computed from the
default.  (A malformed non-empty key is not replaced — see the
counterexample.) -/
theorem empty_start_defaulted (p : Plan) (h : p.startMonthISO = "") :
    buildNetWorthSeries p = buildNetWorthSeries { p with startMonthISO := "2026-01" } := by
  refine buildNetWorthSeries_congr p _ ?_ rfl rfl rfl rfl rfl rfl rfl rfl
  rw [h]
  rfl

/-- C9 witness: a plan whose start month is missing. -/
theorem empty_start_defaulted_witness :
    buildNetWorthSeries ⟨"USD", "", some 3, some 0, some 0, [], [], [], [], [], "hybrid"⟩ =
      buildNetWorthSeries ⟨"USD", "2026-01", some 3, some 0, some 0, [], [], [], [], [], "hybrid"⟩ :=
  empty_start_defaulted ⟨"USD", "", some 3, some 0, some 0, [], [], [], [], [], "hybrid"⟩ rfl

theorem snapshot_stepNW_congr (p q : Plan)
    (hacc : p.netWorthAccounts = q.netWorthAccounts)
    (hsnw : p.startingNetWorth = q.startingNetWorth)
    (r1 r2 : ℚ) (m : String) (nw : ℚ) :
    stepNW p "snapshot" r1 m nw = stepNW q "snapshot" r2 m nw := by
  rw [stepNW, stepNW]
  rw [if_pos rfl, if_pos rfl]
  rw [lastSnapshotAtOrBefore_congr p q hacc hsnw]

theorem snapshot_seriesAux_congr (p q : Plan)
    (hacc : p.netWorthAccounts = q.netWorthAccounts)
    (hsnw : p.startingNetWorth = q.startingNetWorth)
    (r1 r2 : ℚ) (sy sm : Option Int) :
    ∀ (f i : Nat) (nw : ℚ),
      seriesAux p "snapshot" r1 sy sm nw i f = seriesAux q "snapshot" r2 sy sm nw i f
  | 0, _, _ => rfl
  | f + 1, i, nw => by
    rw [seriesAux, seriesAux, snapshot_stepNW_congr p q hacc hsnw r1 r2]
    rw [snapshot_seriesAux_congr p q hacc hsnw r1 r2 sy sm f (i + 1) _]

theorem netWorthForMonth_planFlat : netWorthForMonth planFlat "2026-01" = 10000 := by
  norm_num [netWorthForMonth, accountBalanceForMonth, planFlat, List.find?]

theorem lastSnapshotAtOrBefore_planFlat (m : String) :
    lastSnapshotAtOrBefore planFlat m = none ∨ lastSnapshotAtOrBefore planFlat m = some 10000 := by
  have hc : collectBalanceMonths planFlat = ["2026-01"] := rfl
  have hs : sortedBalanceMonths planFlat = ["2026-01"] := rfl
  have hlat : latestLE ["2026-01"] m none =
      if isoLe "2026-01" m = true then some "2026-01" else none := by
    simp only [latestLE]
  simp only [lastSnapshotAtOrBefore, hc, hs, hlat, List.isEmpty_cons]
  rw [if_neg (by decide : ¬ (false = true))]
  by_cases h : isoLe "2026-01" m = true
  · right
    rw [if_pos h]
    simp [netWorthForMonth_planFlat]
  · left
    rw [if_neg h]

theorem lastSnapshot_planFlat_start :
    lastSnapshotAtOrBefore planFlat "2026-01" = some 10000 := by
  rcases lastSnapshotAtOrBefore_planFlat "2026-01" with h | h
  · have hc : collectBalanceMonths planFlat = ["2026-01"] := rfl
    have hs : sortedBalanceMonths planFlat = ["2026-01"] := rfl
    have hlat : latestLE ["2026-01"] "2026-01" none = some "2026-01" := by
      simp only [latestLE, if_pos (isoLe_refl "2026-01")]
    simp only [lastSnapshotAtOrBefore, hc, hs, hlat, List.isEmpty_cons] at h
    rw [if_neg (by decide : ¬ (false = true))] at h
    simp at h
  · exact h

theorem snapshot_flat_aux (p : Plan) (c r : ℚ) (sy sm : Option Int)
    (h : ∀ m, lastSnapshotAtOrBefore p m = none ∨ lastSnapshotAtOrBefore p m = some c) :
    ∀ (f i : Nat), ∀ pt ∈ seriesAux p "snapshot" r sy sm c i f, pt.netWorth = c
  | 0, i => by simp [seriesAux]
  | f + 1, i => by
    rw [seriesAux]
    intro pt hpt
    have hstep : stepNW p "snapshot" r (monthISOOf sy sm i) c = c := by
      rw [stepNW, if_pos rfl]
      rcases h (monthISOOf sy sm i) with h2 | h2 <;> rw [h2]
    rw [hstep] at hpt
    rcases List.mem_cons.mp hpt with rfl | h3
    · rfl
    · exact snapshot_flat_aux p c r sy sm h f (i + 1) pt h3

/-- C3: in snapshot mode the emitted series does not depend on the
recurring items, one-time items or return setting: two plans agreeing
on everything else produce identical series.  In particular, for the
scenario plan with a single balance 10000 at the start month, every
emitted point equals 10000. -/
theorem snapshot_mode_independence :
    (∀ (p q : Plan), p.netWorthMode = "snapshot" → q.netWorthMode = "snapshot" →
      p.currency = q.currency → p.startMonthISO = q.startMonthISO →
      p.startingNetWorth = q.startingNetWorth → p.goalNetWorth = q.goalNetWorth →
      p.netWorthAccounts = q.netWorthAccounts →
      buildNetWorthSeries p = buildNetWorthSeries q)
    ∧ (∀ pt ∈ buildNetWorthSeries planFlat, pt.netWorth = 10000) := by
  constructor
  · intro p q hp hq hcur hstart hsnw hgoal hacc
    simp only [buildNetWorthSeries, hp, hq, hstart]
    rw [if_neg (by decide : ¬ ("snapshot" : String) = "")]
    rw [if_pos (rfl : ("snapshot" : String) = "snapshot"),
      if_pos (rfl : ("snapshot" : String) = "snapshot")]
    rw [lastSnapshotAtOrBefore_congr p q hacc hsnw]
    exact snapshot_seriesAux_congr p q hacc hsnw _ _ _ _ _ _ _
  · have h1 : planFlat.startMonthISO = "2026-01" := rfl
    have h2 : planFlat.netWorthMode = "snapshot" := rfl
    simp only [buildNetWorthSeries, h1, h2]
    rw [if_neg (by decide : ¬ ("2026-01" : String) = "")]
    rw [if_neg (by decide : ¬ ("snapshot" : String) = "")]
    rw [if_pos (rfl : ("snapshot" : String) = "snapshot")]
    rw [lastSnapshot_planFlat_start]
    exact snapshot_flat_aux planFlat 10000 _ _ _ lastSnapshotAtOrBefore_planFlat _ _

/-! ### The projection scenario (claim C2) -/

theorem netWorthForMonth_planC2 : netWorthForMonth planC2 "2026-01" = 10000 := by
  norm_num [netWorthForMonth, accountBalanceForMonth, planC2, List.find?]

theorem planC2_step (m : String) (nw : ℚ)
    (ha : amountForMonth
      ⟨"i1", "income", "salary", some 1000, "carryForward", [], [], none⟩ m = 1000) :
    stepNW planC2 "projection" (planC2.expectedReturnPct.getD 0 / 100 / 12) m nw =
      nw * (1 + 1 / 100) + 1000 := by
  rw [stepNW]
  rw [if_neg (by decide : ¬ ("projection" : String) = "snapshot")]
  rw [if_neg (fun h => absurd h.1 (by decide))]
  have h1 : planC2.income =
      [⟨"i1", "income", "salary", some 1000, "carryForward", [], [], none⟩] := rfl
  have h2 : planC2.expenses = ([] : List RecurringItem) := rfl
  have h3 : planC2.oneTimeIncome = ([] : List OneTimeItem) := rfl
  have h4 : planC2.oneTimeExpenses = ([] : List OneTimeItem) := rfl
  have h5 : planC2.expectedReturnPct = some 12 := rfl
  rw [h1, h2, h3, h4, h5]
  simp only [List.foldl, List.filter]
  rw [ha]
  norm_num

theorem planC2_points :
    (buildNetWorthSeries planC2)[0]? = some ⟨0, 11100⟩ ∧
    (buildNetWorthSeries planC2)[1]? = some ⟨1, 12211⟩ := by
  have hp1 : planC2.startMonthISO = "2026-01" := rfl
  have hp2 : planC2.netWorthMode = "projection" := rfl
  have hm0 : monthISOOf (jsNumber (jsSlice "2026-01" 0 4))
      (Option.map (fun x => x - 1) (jsNumber (jsSlice "2026-01" 5 7))) 0 = "2026-01" := by
    decide
  have hm1 : monthISOOf (jsNumber (jsSlice "2026-01" 0 4))
      (Option.map (fun x => x - 1) (jsNumber (jsSlice "2026-01" 5 7))) 1 = "2026-02" := by
    decide
  have hs0 : stepNW planC2 "projection"
      (planC2.expectedReturnPct.getD 0 / 100 / 12) "2026-01" 10000 = 11100 := by
    rw [planC2_step "2026-01" 10000 (by decide)]
    norm_num
  have hs1 : stepNW planC2 "projection"
      (planC2.expectedReturnPct.getD 0 / 100 / 12) "2026-02" 11100 = 12211 := by
    rw [planC2_step "2026-02" 11100 (by decide)]
    norm_num
  constructor
  · simp only [buildNetWorthSeries, hp1, hp2]
    rw [if_neg (by decide : ¬ ("2026-01" : String) = "")]
    rw [if_neg (by decide : ¬ ("projection" : String) = "")]
    rw [if_neg (by decide : ¬ ("projection" : String) = "snapshot")]
    rw [if_neg (by decide : ¬ ("projection" : String) = "hybrid")]
    rw [if_pos (by decide : hasNetWorthSnapshot planC2 "2026-01" = true)]
    rw [seriesAux_getElem? _ _ _ _ _ _ 0 0 _ (by norm_num)]
    simp only [Nat.zero_add]
    simp only [nwAfter]
    rw [hm0, netWorthForMonth_planC2, hs0]
  · simp only [buildNetWorthSeries, hp1, hp2]
    rw [if_neg (by decide : ¬ ("2026-01" : String) = "")]
    rw [if_neg (by decide : ¬ ("projection" : String) = "")]
    rw [if_neg (by decide : ¬ ("projection" : String) = "snapshot")]
    rw [if_neg (by decide : ¬ ("projection" : String) = "hybrid")]
    rw [if_pos (by decide : hasNetWorthSnapshot planC2 "2026-01" = true)]
    rw [seriesAux_getElem? _ _ _ _ _ _ 1 0 _ (by norm_num)]
    simp only [Nat.zero_add]
    simp only [nwAfter]
    rw [hm0, hm1, netWorthForMonth_planC2, hs0, hs1]

/-- C2 counterexample: in the scenario plan, the value 11100 appears at
month 0, not month 1; month 1 already holds 12211.  The claim, which
places 11100 at month 1 and 12211 at month 2, is false. -/
theorem projection_scenario_claim_cex :
    ¬ ((buildNetWorthSeries planC2)[1]? = some ⟨1, 11100⟩ ∧
       (buildNetWorthSeries planC2)[2]? = some ⟨2, 12211⟩) := by
  intro h
  have h1 := h.1
  rw [planC2_points.2] at h1
  have h2 := Option.some.inj h1
  have h3 : (12211 : ℚ) = 11100 := congrArg SeriesPoint.netWorth h2
  norm_num at h3

/-- C2 amended: the compounding step applies already to the start
month, so the scenario values appear one month earlier — month 0 net
worth is `10000*(1+0.01)+1000 = 11100` and month 1 is
`11100*1.01+1000 = 12211`. -/
theorem projection_scenario_shifted :
    (buildNetWorthSeries planC2)[0]? = some ⟨0, 11100⟩ ∧
    (buildNetWorthSeries planC2)[1]? = some ⟨1, 12211⟩ :=
  planC2_points

/-! ### Malformed start months (claim C9) -/

theorem planBadStart_point0 : (buildNetWorthSeries planBadStart)[0]? = some ⟨0, 0⟩ := by
  have hp1 : planBadStart.startMonthISO = "2030-013" := rfl
  have hp2 : planBadStart.netWorthMode = "projection" := rfl
  simp only [buildNetWorthSeries, hp1, hp2]
  rw [if_neg (by decide : ¬ ("2030-013" : String) = "")]
  rw [if_neg (by decide : ¬ ("projection" : String) = "")]
  rw [if_neg (by decide : ¬ ("projection" : String) = "snapshot")]
  rw [if_neg (by decide : ¬ ("projection" : String) = "hybrid")]
  rw [if_neg (by decide : ¬ hasNetWorthSnapshot planBadStart "2030-013" = true)]
  rw [seriesAux_getElem? _ _ _ _ _ _ 0 0 _ (by norm_num)]
  simp only [Nat.zero_add, nwAfter]
  rw [show monthISOOf (jsNumber (jsSlice "2030-013" 0 4))
      (Option.map (fun x => x - 1) (jsNumber (jsSlice "2030-013" 5 7))) 0 = "2030-01" from
    by decide]
  rw [stepNW]
  rw [if_neg (by decide : ¬ ("projection" : String) = "snapshot")]
  rw [if_neg (fun h => absurd h.1 (by decide : ¬ ("projection" : String) = "hybrid"))]
  have h1 : planBadStart.income = ([] : List RecurringItem) := rfl
  have h2 : planBadStart.expenses = ([] : List RecurringItem) := rfl
  have h3 : planBadStart.oneTimeIncome =
      [⟨"o1", "income", "bonus", "2026-01", some 100⟩] := rfl
  have h4 : planBadStart.oneTimeExpenses = ([] : List OneTimeItem) := rfl
  have h5 : planBadStart.startingNetWorth = some 0 := rfl
  have h6 : planBadStart.expectedReturnPct = some 0 := rfl
  rw [h1, h2, h3, h4, h5, h6]
  norm_num [List.filter, List.foldl]

theorem planGoodStart_point0 : (buildNetWorthSeries planGoodStart)[0]? = some ⟨0, 100⟩ := by
  have hp1 : planGoodStart.startMonthISO = "2026-01" := rfl
  have hp2 : planGoodStart.netWorthMode = "projection" := rfl
  simp only [buildNetWorthSeries, hp1, hp2]
  rw [if_neg (by decide : ¬ ("2026-01" : String) = "")]
  rw [if_neg (by decide : ¬ ("projection" : String) = "")]
  rw [if_neg (by decide : ¬ ("projection" : String) = "snapshot")]
  rw [if_neg (by decide : ¬ ("projection" : String) = "hybrid")]
  rw [if_neg (by decide : ¬ hasNetWorthSnapshot planGoodStart "2026-01" = true)]
  rw [seriesAux_getElem? _ _ _ _ _ _ 0 0 _ (by norm_num)]
  simp only [Nat.zero_add, nwAfter]
  rw [show monthISOOf (jsNumber (jsSlice "2026-01" 0 4))
      (Option.map (fun x => x - 1) (jsNumber (jsSlice "2026-01" 5 7))) 0 = "2026-01" from
    by decide]
  rw [stepNW]
  rw [if_neg (by decide : ¬ ("projection" : String) = "snapshot")]
  rw [if_neg (fun h => absurd h.1 (by decide : ¬ ("projection" : String) = "hybrid"))]
  have h1 : planGoodStart.income = ([] : List RecurringItem) := rfl
  have h2 : planGoodStart.expenses = ([] : List RecurringItem) := rfl
  have h3 : planGoodStart.oneTimeIncome =
      [⟨"o1", "income", "bonus", "2026-01", some 100⟩] := rfl
  have h4 : planGoodStart.oneTimeExpenses = ([] : List OneTimeItem) := rfl
  have h5 : planGoodStart.startingNetWorth = some 0 := rfl
  have h6 : planGoodStart.expectedReturnPct = some 0 := rfl
  rw [h1, h2, h3, h4, h5, h6]
  norm_num [List.filter, List.foldl]

/-- C9 counterexample: for the plan with the malformed start month
"2030-013" the engine does not substitute the default "2026-01" — its
series differs from the defaulted plan's series (already at index 0,
where the one-time income of 2026-01 is missed). -/
theorem invalid_start_not_defaulted_cex :
    isMonthKey planBadStart.startMonthISO = false ∧
    buildNetWorthSeries planBadStart ≠ buildNetWorthSeries planGoodStart := by
  refine ⟨by decide, fun h => ?_⟩
  have h0 : (buildNetWorthSeries planBadStart)[0]? =
      (buildNetWorthSeries planGoodStart)[0]? := by rw [h]
  rw [planBadStart_point0, planGoodStart_point0] at h0
  have h2 := Option.some.inj h0
  have h3 : (0 : ℚ) = 100 := congrArg SeriesPoint.netWorth h2
  norm_num at h3

/-! ### Missing-mode fallback (claim C10) -/

theorem netWorthForMonth_planModeless :
    netWorthForMonth planModeless "2026-01" = 10000 := by
  norm_num [netWorthForMonth, accountBalanceForMonth, planModeless, List.find?]

theorem lastSnapshot_planModeless (m : String) (h : isoLe "2026-01" m = true) :
    lastSnapshotAtOrBefore planModeless m = some 10000 := by
  have hc : collectBalanceMonths planModeless = ["2026-01"] := rfl
  have hs : sortedBalanceMonths planModeless = ["2026-01"] := rfl
  have hlat : latestLE ["2026-01"] m none = some "2026-01" := by
    simp only [latestLE, if_pos h]
  simp only [lastSnapshotAtOrBefore, hc, hs, hlat, List.isEmpty_cons]
  rw [if_neg (by decide : ¬ (false = true))]
  simp [netWorthForMonth_planModeless]

theorem planModeless_point1 : (buildNetWorthSeries planModeless)[1]? = some ⟨1, 10000⟩ := by
  have hp1 : planModeless.startMonthISO = "2026-01" := rfl
  have hp2 : planModeless.netWorthMode = "" := rfl
  simp only [buildNetWorthSeries, hp1, hp2]
  rw [if_neg (by decide : ¬ ("2026-01" : String) = "")]
  simp only [if_true]
  rw [lastSnapshot_planModeless "2026-01" (isoLe_refl "2026-01")]
  rw [seriesAux_getElem? _ _ _ _ _ _ 1 0 _ (by norm_num)]
  simp only [Nat.zero_add, nwAfter]
  rw [show monthISOOf (jsNumber (jsSlice "2026-01" 0 4))
      (Option.map (fun x => x - 1) (jsNumber (jsSlice "2026-01" 5 7))) 0 = "2026-01" from
    by decide]
  rw [show monthISOOf (jsNumber (jsSlice "2026-01" 0 4))
      (Option.map (fun x => x - 1) (jsNumber (jsSlice "2026-01" 5 7))) 1 = "2026-02" from
    by decide]
  have hstep1 : stepNW planModeless "snapshot"
      (planModeless.expectedReturnPct.getD 0 / 100 / 12) "2026-01" ((some (10000 : ℚ)).getD 0) =
      10000 := by
    rw [stepNW, if_pos rfl, lastSnapshot_planModeless "2026-01" (isoLe_refl "2026-01")]
  have hstep2 : stepNW planModeless "snapshot"
      (planModeless.expectedReturnPct.getD 0 / 100 / 12) "2026-02" 10000 = 10000 := by
    rw [stepNW, if_pos rfl, lastSnapshot_planModeless "2026-02" (by decide)]
  rw [hstep1, hstep2]

theorem planModelessHybrid_point1 :
    (buildNetWorthSeries planModelessHybrid)[1]? = some ⟨1, 11000⟩ := by
  have hp1 : planModelessHybrid.startMonthISO = "2026-01" := rfl
  have hp2 : planModelessHybrid.netWorthMode = "hybrid" := rfl
  have hcongr : ∀ m, lastSnapshotAtOrBefore planModelessHybrid m =
      lastSnapshotAtOrBefore planModeless m :=
    lastSnapshotAtOrBefore_congr planModelessHybrid planModeless rfl rfl
  simp only [buildNetWorthSeries, hp1, hp2]
  rw [if_neg (by decide : ¬ ("2026-01" : String) = "")]
  rw [if_neg (by decide : ¬ ("hybrid" : String) = "")]
  rw [if_neg (by decide : ¬ ("hybrid" : String) = "snapshot")]
  rw [if_pos (rfl : ("hybrid" : String) = "hybrid")]
  rw [hcongr, lastSnapshot_planModeless "2026-01" (isoLe_refl "2026-01")]
  rw [seriesAux_getElem? _ _ _ _ _ _ 1 0 _ (by norm_num)]
  simp only [Nat.zero_add, nwAfter]
  rw [show monthISOOf (jsNumber (jsSlice "2026-01" 0 4))
      (Option.map (fun x => x - 1) (jsNumber (jsSlice "2026-01" 5 7))) 0 = "2026-01" from
    by decide]
  rw [show monthISOOf (jsNumber (jsSlice "2026-01" 0 4))
      (Option.map (fun x => x - 1) (jsNumber (jsSlice "2026-01" 5 7))) 1 = "2026-02" from
    by decide]
  have hnwm : netWorthForMonth planModelessHybrid "2026-01" = 10000 := by
    rw [netWorthForMonth_congr planModelessHybrid planModeless rfl rfl]
    exact netWorthForMonth_planModeless
  have hstep1 : stepNW planModelessHybrid "hybrid"
      (planModelessHybrid.expectedReturnPct.getD 0 / 100 / 12) "2026-01"
      ((some (10000 : ℚ)).getD (planModelessHybrid.startingNetWorth.getD 0)) = 10000 := by
    rw [stepNW_hybrid_anchor _ _ _ _
      (by decide : hasNetWorthSnapshot planModelessHybrid "2026-01" = true)]
    exact hnwm
  have hstep2 : stepNW planModelessHybrid "hybrid"
      (planModelessHybrid.expectedReturnPct.getD 0 / 100 / 12) "2026-02" 10000 = 11000 := by
    rw [stepNW]
    rw [if_neg (by decide : ¬ ("hybrid" : String) = "snapshot")]
    rw [if_neg (fun h =>
      absurd h.2 (by decide : ¬ hasNetWorthSnapshot planModelessHybrid "2026-02" = true))]
    have h1 : planModelessHybrid.income =
        [⟨"i1", "income", "salary", some 1000, "carryForward", [], [], none⟩] := rfl
    have h2 : planModelessHybrid.expenses = ([] : List RecurringItem) := rfl
    have h3 : planModelessHybrid.oneTimeIncome = ([] : List OneTimeItem) := rfl
    have h4 : planModelessHybrid.oneTimeExpenses = ([] : List OneTimeItem) := rfl
    have h5 : planModelessHybrid.expectedReturnPct = some 0 := rfl
    rw [h1, h2, h3, h4, h5]
    simp only [List.foldl, List.filter]
    rw [show amountForMonth
        ⟨"i1", "income", "salary", some 1000, "carryForward", [], [], none⟩ "2026-02" = 1000 from
      by decide]
    norm_num
  rw [hstep1, hstep2]

/-- C10: handed a plan with a missing mode, the engine itself behaves
in snapshot mode (its fallback is "snapshot"), while the load-time
normalizer maps unrecognized modes to "hybrid"; the two disagree, as
the concrete plan shows at month 1. -/
theorem engine_mode_fallback :
    (∀ p : Plan, p.netWorthMode = "" →
      buildNetWorthSeries p = buildNetWorthSeries { p with netWorthMode := "snapshot" })
    ∧ normalizeMode "" = "hybrid"
    ∧ (buildNetWorthSeries planModeless)[1]? ≠
      (buildNetWorthSeries planModelessHybrid)[1]? := by
  refine ⟨?_, by decide, ?_⟩
  · intro p h
    refine buildNetWorthSeries_congr p _ rfl ?_ rfl rfl rfl rfl rfl rfl rfl
    rw [h]
    rfl
  · rw [planModeless_point1, planModelessHybrid_point1]
    intro h
    have h2 := Option.some.inj h
    have h3 : (10000 : ℚ) = 11000 := congrArg SeriesPoint.netWorth h2
    norm_num at h3

/-- C10 witness: the fallback equality applied to the concrete
modeless plan. -/
theorem engine_mode_fallback_witness :
    buildNetWorthSeries planModeless =
      buildNetWorthSeries { planModeless with netWorthMode := "snapshot" } :=
  engine_mode_fallback.1 planModeless rfl

/-- C1 witness: the hybrid series snaps to the entered aggregate at the
anchor month 2026-04 (index 3). -/
theorem hybrid_anchor_agreement_witness :
    (buildNetWorthSeries planAnchor)[3]? =
      some ⟨3, netWorthForMonth planAnchor (monthAt planAnchor 3)⟩ :=
  hybrid_anchor_agreement planAnchor 3 (by decide) rfl (by decide)

/-- C3 witness: the scenario plan and its cash-flow-free variant
produce identical snapshot-mode series. -/
theorem snapshot_mode_independence_witness :
    buildNetWorthSeries planFlat = buildNetWorthSeries planFlatBare :=
  snapshot_mode_independence.1 planFlat planFlatBare rfl rfl rfl rfl rfl rfl rfl

/-! ### The as-of query (claim C6) -/

theorem mem_collectBalanceMonths {p : Plan} {m : String} :
    m ∈ collectBalanceMonths p ↔
      ∃ a ∈ p.netWorthAccounts, ∃ b ∈ a.balances,
        b.amount.isSome = true ∧ b.monthISO = m := by
  simp only [collectBalanceMonths, List.mem_flatten, List.mem_map, List.mem_filter]
  constructor
  · rintro ⟨l, ⟨a, ha, rfl⟩, hm⟩
    rcases List.mem_map.mp hm with ⟨b, hb, rfl⟩
    exact ⟨a, ha, b, (List.mem_filter.mp hb).1, (List.mem_filter.mp hb).2, rfl⟩
  · rintro ⟨a, ha, b, hb, hfin, rfl⟩
    refine ⟨(a.balances.filter (fun x => x.amount.isSome)).map (fun x => x.monthISO),
      ⟨a, ha, rfl⟩, ?_⟩
    exact List.mem_map.mpr ⟨b, List.mem_filter.mpr ⟨hb, hfin⟩, rfl⟩

theorem sortedBalanceMonths_perm (p : Plan) :
    List.Perm (sortedBalanceMonths p) (collectBalanceMonths p).dedup :=
  List.perm_insertionSort (fun a b : String => isoLe a b = true) _

theorem sortedBalanceMonths_sorted (p : Plan) :
    (sortedBalanceMonths p).Pairwise (fun a b => isoLe a b = true) :=
  List.sorted_insertionSort (fun a b : String => isoLe a b = true) _

theorem sortedBalanceMonths_nodup (p : Plan) :
    (sortedBalanceMonths p).Pairwise (fun a b : String => a ≠ b) :=
  ((sortedBalanceMonths_perm p).pairwise_iff (fun h e => h e.symm)).mpr
    (List.nodup_dedup _)

theorem mem_sortedBalanceMonths {p : Plan} {m : String} :
    m ∈ sortedBalanceMonths p ↔ m ∈ collectBalanceMonths p := by
  rw [(sortedBalanceMonths_perm p).mem_iff, List.mem_dedup]

theorem snapshotMonthAtOrBefore_eq_some (p : Plan) (target m : String)
    (hm : m ∈ collectBalanceMonths p) (hle : isoLe m target = true)
    (hmax : ∀ m2 ∈ collectBalanceMonths p, isoLe m2 target = true → isoLe m2 m = true) :
    snapshotMonthAtOrBefore p target = some m := by
  have hne : collectBalanceMonths p ≠ [] := List.ne_nil_of_mem hm
  rw [snapshotMonthAtOrBefore]
  rw [if_neg (fun hc => hne (List.isEmpty_iff.mp hc))]
  rw [latestLE_sorted target _ (sortedBalanceMonths_sorted p)]
  have hlast : ((sortedBalanceMonths p).filter (fun x => isoLe x target)).getLast? =
      some m := by
    refine getLast?_eq_of_max (fun x => x) _
      ((sortedBalanceMonths_sorted p).filter _)
      ((sortedBalanceMonths_nodup p).filter _) m ?_ ?_
    · exact List.mem_filter.mpr ⟨mem_sortedBalanceMonths.mpr hm, hle⟩
    · intro e he
      have h1 := List.mem_filter.mp he
      exact hmax e (mem_sortedBalanceMonths.mp h1.1) h1.2
  rw [hlast]

theorem snapshotMonthAtOrBefore_eq_none (p : Plan) (target : String)
    (h : ∀ m ∈ collectBalanceMonths p, isoLe m target = false) :
    snapshotMonthAtOrBefore p target = none := by
  rw [snapshotMonthAtOrBefore]
  by_cases hc : (collectBalanceMonths p).isEmpty = true
  · rw [if_pos hc]
  · rw [if_neg hc]
    rw [latestLE_sorted target _ (sortedBalanceMonths_sorted p)]
    have hempty : (sortedBalanceMonths p).filter (fun x => isoLe x target) = [] := by
      refine List.filter_eq_nil_iff.mpr ?_
      intro m hmem hcontra
      rw [h m (mem_sortedBalanceMonths.mp hmem)] at hcontra
      simp at hcontra
    rw [hempty]
    rfl

/-- C6: `netWorthAsOf` returns the aggregate at the latest entered
snapshot month at or before the target with source `snapshot` when one
exists; otherwise the non-zero legacy scalar tagged to the target month
with source `legacy`; otherwise nothing.  At a month with an exact
snapshot it agrees with `netWorthForMonth` with source `snapshot`.
Balance entries are assumed well-formed: non-empty month keys and
finite amounts. -/
theorem netWorthAsOf_spec (p : Plan) (target : String)
    (hval : ∀ a ∈ p.netWorthAccounts, ∀ b ∈ a.balances,
      b.monthISO ≠ "" ∧ b.amount.isSome = true) :
    (∀ m, (∃ a ∈ p.netWorthAccounts, ∃ b ∈ a.balances, b.monthISO = m) →
      isoLe m target = true →
      (∀ a ∈ p.netWorthAccounts, ∀ b ∈ a.balances,
        isoLe b.monthISO target = true → isoLe b.monthISO m = true) →
      netWorthAsOf p target = some ⟨m, netWorthForMonth p m, NWSource.snapshot⟩)
    ∧ ((∀ a ∈ p.netWorthAccounts, ∀ b ∈ a.balances, isoLe b.monthISO target = false) →
        (p.startingNetWorth.getD 0 ≠ 0 →
          netWorthAsOf p target = some ⟨target, p.startingNetWorth.getD 0, NWSource.legacy⟩)
        ∧ (p.startingNetWorth.getD 0 = 0 → netWorthAsOf p target = none))
    ∧ (hasNetWorthSnapshot p target = true →
        netWorthAsOf p target = some ⟨target, netWorthForMonth p target, NWSource.snapshot⟩) := by
  have hA : ∀ m, (∃ a ∈ p.netWorthAccounts, ∃ b ∈ a.balances, b.monthISO = m) →
      isoLe m target = true →
      (∀ a ∈ p.netWorthAccounts, ∀ b ∈ a.balances,
        isoLe b.monthISO target = true → isoLe b.monthISO m = true) →
      netWorthAsOf p target = some ⟨m, netWorthForMonth p m, NWSource.snapshot⟩ := by
    intro m hmem hle hmax
    obtain ⟨a, ha, b, hb, hbm⟩ := hmem
    have hfin := (hval a ha b hb).2
    have hne : m ≠ "" := hbm ▸ (hval a ha b hb).1
    have hmc : m ∈ collectBalanceMonths p :=
      mem_collectBalanceMonths.mpr ⟨a, ha, b, hb, hfin, hbm⟩
    have hmax2 : ∀ m2 ∈ collectBalanceMonths p, isoLe m2 target = true →
        isoLe m2 m = true := by
      intro m2 hm2 h2le
      obtain ⟨a2, ha2, b2, hb2, _, hbm2⟩ := mem_collectBalanceMonths.mp hm2
      exact hbm2 ▸ hmax a2 ha2 b2 hb2 (hbm2 ▸ h2le)
    rw [netWorthAsOf, snapshotMonthAtOrBefore_eq_some p target m hmc hle hmax2]
    dsimp only
    rw [if_neg hne]
  refine ⟨hA, ?_, ?_⟩
  · intro hnone
    have hsm : snapshotMonthAtOrBefore p target = none := by
      refine snapshotMonthAtOrBefore_eq_none p target ?_
      intro m hm
      obtain ⟨a, ha, b, hb, _, hbm⟩ := mem_collectBalanceMonths.mp hm
      exact hbm ▸ hnone a ha b hb
    constructor
    · intro hlegacy
      rw [netWorthAsOf, hsm]
      dsimp only
      rw [if_pos hlegacy]
    · intro hlegacy
      rw [netWorthAsOf, hsm]
      dsimp only
      rw [if_neg (fun hn => hn hlegacy)]
  · intro hsnap
    have hmem : ∃ a ∈ p.netWorthAccounts, ∃ b ∈ a.balances, b.monthISO = target := by
      simp only [hasNetWorthSnapshot, List.any_eq_true, beq_iff_eq] at hsnap
      exact hsnap
    exact hA target hmem (isoLe_refl target) (fun a ha b hb h2 => h2)

/-- C6 witness: querying past the entered month returns that month's
aggregate, tagged as a snapshot. -/
theorem netWorthAsOf_spec_witness :
    netWorthAsOf planAsOf "2026-05" =
      some ⟨"2026-03", netWorthForMonth planAsOf "2026-03", NWSource.snapshot⟩ :=
  (netWorthAsOf_spec planAsOf "2026-05" (by decide)).1 "2026-03" (by decide) (by decide)
    (by decide)
